import Mathlib

/-!
Verification of the tide-current core of the akashi-tide-app repository.

Two subsystems are embedded:

* `src/lib/tide-utils.ts` — the tide cycle estimator (`parseTideEvents`,
  `estimateCurrentFlow`, `timeToMinutes`).
* `src/components/AkashiStraitMap.tsx` — the particle flow-field simulator
  (`isInWater`, `createParticle`, the particle-init effect and the per-frame
  `animate` update).

Modelling conventions:

* JavaScript strings are Lean `String`s; the JS relational operators `<`/`<=`
  on strings (UTF-16 code-unit lexicographic order; identical to code-point
  order for the ASCII data handled here) are embedded as the structural
  comparison `jsLtChars` on `String.data`.  `localeCompare` on the zero-padded
  "HH:MM" strings sorted here agrees with that order.
* JS `number` arithmetic is embedded in `ℚ` (exact rationals; the source only
  adds, subtracts, multiplies, divides and compares).  `NaN` produced by
  `Number`/`parseInt` on malformed input is represented by `Option`/a `0`
  default where noted; every theorem below evaluates these functions only on
  well-formed inputs, where the embedding is exact.
* `Math.random()` draws and the floating-point trigonometry of the particle
  animation are abstracted as explicit oracle inputs; the claims proved here
  are independent of the drawn values.
-/

namespace Akashi

/-! ## JS string comparison (code-unit lexicographic order) -/

/-- JS `<` on strings: lexicographic comparison of the character sequences by
code unit.  Structural recursion on both lists. -/
def jsLtChars : List Char → List Char → Bool
  | [], [] => false
  | [], _ :: _ => true
  | _ :: _, [] => false
  | a :: as, b :: bs =>
    if a.toNat < b.toNat then true
    else if b.toNat < a.toNat then false
    else jsLtChars as bs

/-- JS `a < b` for strings. -/
def jsLt (a b : String) : Bool := jsLtChars a.data b.data

/-- JS `a <= b` for strings (total order: `a <= b ⟺ ¬(b < a)`). -/
def jsLe (a b : String) : Bool := !(jsLt b a)

/-! ## Data model of `src/lib/tide-utils.ts` -/

/-- `"high" | "low"` tag of a `TideEvent`. -/
inductive TideType
  | high
  | low
deriving DecidableEq

/-- `TideEvent = { time: string; height: number; type: "high" | "low" }`
(heights are integer centimetres). -/
structure TideEvent where
  time : String
  height : Int
  type : TideType
deriving DecidableEq

/-- The three direction literals of `CurrentFlow.direction`:
`south` = `"南流（下げ潮）"`, `north` = `"北流（上げ潮）"`, `tenryu` = `"転流"`. -/
inductive FlowDir
  | south
  | north
  | tenryu
deriving DecidableEq

/-- The three strength literals of `CurrentFlow.strength`:
`strong` = `"強"`, `medium` = `"中"`, `weak` = `"弱"`. -/
inductive Strength
  | strong
  | medium
  | weak
deriving DecidableEq

/-- `CurrentFlow = { direction; strength; description }`. -/
structure CurrentFlow where
  direction : FlowDir
  strength : Strength
  description : String
deriving DecidableEq

/-! ## `parseTideEvents` (tide-utils.ts lines 13–46) -/

/-- One raw entry of the `high` / `low` arrays: `{ time: string; cm: string }`. -/
structure RawEntry where
  time : String
  cm : String
deriving DecidableEq

/-- JS `parseInt(s, 10)`: parse the longest leading run of decimal digits.
JS returns `NaN` when there is no digit; the tide heights parsed by the
theorems below are plain digit strings, where this embedding is exact, and the
no-digit case is idealised to `0`. -/
def jsParseInt (s : String) : Int :=
  let digits := s.data.takeWhile (fun c => 48 ≤ c.toNat && c.toNat ≤ 57)
  digits.foldl (fun n c => 10 * n + ((c.toNat : Int) - 48)) 0

/-- The filter condition `h.time && h.time !== "--:--"` (an empty string is
falsy in JS). -/
def keepEntry (r : RawEntry) : Bool := r.time != "" && r.time != "--:--"

/-- `parseTideEvents`: filter out sentinel times from both arrays, tag each
survivor with its kind, parse its height, merge, and sort ascending by time
string (`events.sort((a, b) => a.time.localeCompare(b.time))`, embedded as a
merge sort by `jsLe` on times). -/
def parseTideEvents (high low : List RawEntry) : List TideEvent :=
  let hs := (high.filter keepEntry).map
    (fun r => { time := r.time, height := jsParseInt r.cm, type := TideType.high })
  let ls := (low.filter keepEntry).map
    (fun r => { time := r.time, height := jsParseInt r.cm, type := TideType.low })
  (hs ++ ls).mergeSort (fun a b => jsLe a.time b.time)

/-! ## `timeToMinutes` (tide-utils.ts lines 116–119) -/

/-- JS `Number(s)` for the colon-separated segments handled here: `""` is `0`,
a digit string is its decimal value, anything else is `NaN` (`none`).  (Other
JS numeric syntax — signs, decimals, hex — never reaches this function.) -/
def jsNumber (cs : List Char) : Option Int :=
  if cs.isEmpty then some 0
  else if cs.all (fun c => 48 ≤ c.toNat && c.toNat ≤ 57) then
    some (cs.foldl (fun n c => 10 * n + ((c.toNat : Int) - 48)) 0)
  else none

/-- `timeToMinutes`: `const [h, m] = time.split(":").map(Number); return
h * 60 + m;`.  Splitting on `":"` is embedded as `List.splitOn ':'` on the
character data.  When either of the first two segments is `NaN` (or missing),
the JS result is `NaN`; that case is idealised to `0` and never arises on the
well-formed times used by the theorems below. -/
def timeToMinutes (time : String) : Int :=
  match (time.data.splitOn ':').map jsNumber with
  | some h :: some m :: _ => h * 60 + m
  | _ => 0

/-! ## `estimateCurrentFlow` (tide-utils.ts lines 48–114) -/

/-- `` `${String(currentHour).padStart(2, "0")}:00` `` — the query-time
string. -/
def padHour (h : Nat) : String :=
  let s := toString h
  if s.length < 2 then "0" ++ s else s

/-- The `currentTimeStr` of `estimateCurrentFlow`. -/
def currentTimeStr (currentHour : Nat) : String := padHour currentHour ++ ":00"

/-- One iteration of the straddling-pair search loop (lines 65–72):
`if (event.time <= currentTimeStr) prevEvent = event;`
`if (event.time > currentTimeStr && !nextEvent) nextEvent = event;`. -/
def straddleStep (cur : String) (acc : Option TideEvent × Option TideEvent)
    (e : TideEvent) : Option TideEvent × Option TideEvent :=
  (if jsLe e.time cur then some e else acc.1,
   if jsLt cur e.time && acc.2.isNone then some e else acc.2)

/-- The whole search loop, starting from `prevEvent = nextEvent = null`. -/
def findStraddle (events : List TideEvent) (cur : String) :
    Option TideEvent × Option TideEvent :=
  events.foldl (straddleStep cur) (none, none)

/-- `{ ...e, type: e.type === "high" ? "low" : "high" }` — the synthesized
wraparound boundary keeps the time and height and flips the type. -/
def flipEvent (e : TideEvent) : TideEvent :=
  { e with type := if e.type = TideType.high then TideType.low else TideType.high }

/-- Lines 74–79: synthesize a missing boundary by wrapping to the opposite end
of the sequence with its type flipped.  The two `if`s run in sequence, the
second one reading the possibly-updated `prevEvent`. -/
def resolvePair (events : List TideEvent) (cur : String) :
    Option TideEvent × Option TideEvent :=
  let s := findStraddle events cur
  let p : Option TideEvent :=
    match s.1, s.2 with
    | none, some _ => (events.getLast?).map flipEvent
    | q, _ => q
  let n : Option TideEvent :=
    match p, s.2 with
    | some _, none => (events.head?).map flipEvent
    | _, q => q
  (p, n)

/-- Lines 86–91: `progress` through the `prev → next` interval at the query
instant, defaulting to `0.5` when the interval has non-positive duration. -/
def progressOf (prev next : TideEvent) (currentHour : Nat) : ℚ :=
  let prevMinutes : ℚ := (timeToMinutes prev.time : ℚ)
  let nextMinutes : ℚ := (timeToMinutes next.time : ℚ)
  let currentMinutes : ℚ := (currentHour : ℚ) * 60
  let totalInterval := nextMinutes - prevMinutes
  let elapsed := currentMinutes - prevMinutes
  if totalInterval > 0 then elapsed / totalInterval else 1/2

/-- Lines 93–95: direction is `南流（下げ潮）` after a high tide and
`北流（上げ潮）` after a low tide — a function of `prevEvent.type` only. -/
def directionOf (prev : TideEvent) : FlowDir :=
  if prev.type = TideType.high then FlowDir.south else FlowDir.north

/-- Lines 99–106: strength from progress through the cycle. -/
def strengthOf (progress : ℚ) : Strength :=
  if progress < 15/100 ∨ progress > 85/100 then Strength.weak
  else if progress < 35/100 ∨ progress > 65/100 then Strength.medium
  else Strength.strong

/-- Lines 108–111: the human-readable description
`` `${kind}(${prev.time}) → ${kind}(${next.time}) 潮位差: ${heightDiff}cm` ``. -/
def describe (prev next : TideEvent) : String :=
  (if prev.type = TideType.high then "満潮" else "干潮") ++ "(" ++ prev.time ++
    ") → " ++
  (if next.type = TideType.high then "満潮" else "干潮") ++ "(" ++ next.time ++
    ") 潮位差: " ++ toString (prev.height - next.height).natAbs ++ "cm"

/-- `estimateCurrentFlow(events, currentHour)`. -/
def estimateCurrentFlow (events : List TideEvent) (currentHour : Nat) :
    CurrentFlow :=
  if events.isEmpty then
    { direction := FlowDir.tenryu, strength := Strength.weak,
      description := "データなし" }
  else
    match resolvePair events (currentTimeStr currentHour) with
    | (some prev, some next) =>
      { direction := directionOf prev,
        strength := strengthOf (progressOf prev next currentHour),
        description := describe prev next }
    | _ =>
      { direction := FlowDir.tenryu, strength := Strength.weak,
        description := "推定不可" }

/-! ## Resolution of the straddling pair -/

theorem foldl_straddle_fst_none {cur : String} :
    ∀ (l : List TideEvent) (acc : Option TideEvent × Option TideEvent),
      (l.foldl (straddleStep cur) acc).1 = none →
      acc.1 = none ∧ ∀ e ∈ l, jsLe e.time cur = false := by
  intro l
  induction l with
  | nil => intro acc h; simpa using h
  | cons e t ih =>
    intro acc h
    rw [List.foldl_cons] at h
    obtain ⟨h1, h2⟩ := ih _ h
    by_cases hle : jsLe e.time cur = true
    · simp [straddleStep, hle] at h1
    · rw [Bool.not_eq_true] at hle
      refine ⟨by simpa [straddleStep, hle] using h1, ?_⟩
      intro x hx
      rcases List.mem_cons.mp hx with hx | hx
      · exact hx ▸ hle
      · exact h2 x hx

theorem foldl_straddle_snd_none {cur : String} :
    ∀ (l : List TideEvent) (acc : Option TideEvent × Option TideEvent),
      (l.foldl (straddleStep cur) acc).2 = none →
      acc.2 = none ∧ ∀ e ∈ l, jsLt cur e.time = false := by
  intro l
  induction l with
  | nil => intro acc h; simpa using h
  | cons e t ih =>
    intro acc h
    rw [List.foldl_cons] at h
    obtain ⟨h1, h2⟩ := ih _ h
    by_cases hc : (jsLt cur e.time && acc.2.isNone) = true
    · simp [straddleStep, hc] at h1
    · rw [Bool.not_eq_true] at hc
      have hacc : acc.2 = none := by simpa [straddleStep, hc] using h1
      refine ⟨hacc, ?_⟩
      intro x hx
      rcases List.mem_cons.mp hx with hx | hx
      · subst hx
        rcases Bool.and_eq_false_iff.mp hc with h' | h'
        · exact h'
        · simp [hacc] at h'
      · exact h2 x hx

theorem foldl_straddle_fst_some {cur : String} :
    ∀ (l : List TideEvent) (acc : Option TideEvent × Option TideEvent)
      (p : TideEvent), (l.foldl (straddleStep cur) acc).1 = some p →
      acc.1 = some p ∨ (p ∈ l ∧ jsLe p.time cur = true) := by
  intro l
  induction l with
  | nil => intro acc p h; exact Or.inl (by simpa using h)
  | cons e t ih =>
    intro acc p h
    rw [List.foldl_cons] at h
    rcases ih _ _ h with h1 | ⟨hm, hle⟩
    · by_cases hle : jsLe e.time cur = true
      · have : e = p := by simpa [straddleStep, hle] using h1
        exact Or.inr ⟨this ▸ List.mem_cons_self e t, this ▸ hle⟩
      · rw [Bool.not_eq_true] at hle
        exact Or.inl (by simpa [straddleStep, hle] using h1)
    · exact Or.inr ⟨List.mem_cons_of_mem e hm, hle⟩

theorem foldl_straddle_snd_some {cur : String} :
    ∀ (l : List TideEvent) (acc : Option TideEvent × Option TideEvent)
      (n : TideEvent), (l.foldl (straddleStep cur) acc).2 = some n →
      acc.2 = some n ∨ (n ∈ l ∧ jsLt cur n.time = true) := by
  intro l
  induction l with
  | nil => intro acc n h; exact Or.inl (by simpa using h)
  | cons e t ih =>
    intro acc n h
    rw [List.foldl_cons] at h
    rcases ih _ _ h with h1 | ⟨hm, hlt⟩
    · by_cases hc : (jsLt cur e.time && acc.2.isNone) = true
      · have he : e = n := by simpa [straddleStep, hc] using h1
        have hlt : jsLt cur e.time = true := by
          rcases Bool.and_eq_true_iff.mp hc with ⟨h', -⟩
          exact h'
        exact Or.inr ⟨he ▸ List.mem_cons_self e t, he ▸ hlt⟩
      · rw [Bool.not_eq_true] at hc
        exact Or.inl (by simpa [straddleStep, hc] using h1)
    · exact Or.inr ⟨List.mem_cons_of_mem e hm, hlt⟩

theorem jsLe_eq_false_iff {a b : String} : jsLe a b = false ↔ jsLt b a = true := by
  simp [jsLe]

theorem findStraddle_not_both_none {events : List TideEvent} {cur : String}
    (hne : events ≠ []) :
    ¬((findStraddle events cur).1 = none ∧ (findStraddle events cur).2 = none) := by
  rintro ⟨h1, h2⟩
  obtain ⟨e, he⟩ := List.exists_mem_of_ne_nil events hne
  have hle := (foldl_straddle_fst_none events _ h1).2 e he
  have hlt := (foldl_straddle_snd_none events _ h2).2 e he
  rw [jsLe_eq_false_iff] at hle
  rw [hle] at hlt
  exact absurd hlt (by simp)

theorem resolvePair_some {events : List TideEvent} (cur : String)
    (hne : events ≠ []) :
    ∃ p n, resolvePair events cur = (some p, some n) := by
  rcases h1 : (findStraddle events cur).1 with _ | p0 <;>
    rcases h2 : (findStraddle events cur).2 with _ | n0
  · exact absurd ⟨h1, h2⟩ (findStraddle_not_both_none hne)
  · obtain ⟨l0, hl0⟩ := Option.isSome_iff_exists.mp
      (List.getLast?_isSome.mpr hne)
    exact ⟨flipEvent l0, n0, by simp [resolvePair, h1, h2, hl0]⟩
  · obtain ⟨f0, hf0⟩ := Option.isSome_iff_exists.mp
      (List.head?_isSome.mpr hne)
    exact ⟨p0, flipEvent f0, by simp [resolvePair, h1, h2, hf0]⟩
  · exact ⟨p0, n0, by simp [resolvePair, h1, h2]⟩

theorem estimate_eq {events : List TideEvent} {hour : Nat} {p n : TideEvent}
    (hne : events ≠ [])
    (hres : resolvePair events (currentTimeStr hour) = (some p, some n)) :
    estimateCurrentFlow events hour =
      { direction := directionOf p,
        strength := strengthOf (progressOf p n hour),
        description := describe p n } := by
  simp [estimateCurrentFlow, hne, hres]

/-! ## Well-formed "HH:MM" times and the bridge between the string order and
`timeToMinutes`.  `wfTime` is the spec's data-model invariant: a zero-padded
`HH:MM` clock time (two digits, a colon, two digits, hour < 24, minute < 60). -/

def wfTime (s : String) : Bool :=
  match s.data with
  | [h1, h2, c, m1, m2] =>
    (c == ':') &&
    (48 ≤ h1.toNat && h1.toNat ≤ 57) && (48 ≤ h2.toNat && h2.toNat ≤ 57) &&
    (48 ≤ m1.toNat && m1.toNat ≤ 57) && (48 ≤ m2.toNat && m2.toNat ≤ 57) &&
    (10 * (h1.toNat - 48) + (h2.toNat - 48) < 24) &&
    (10 * (m1.toNat - 48) + (m2.toNat - 48) < 60)
  | _ => false

theorem jsLtChars_cons (a b : Char) (l m : List Char) :
    jsLtChars (a :: l) (b :: m) = true ↔
      (a.toNat < b.toNat ∨ (a.toNat = b.toNat ∧ jsLtChars l m = true)) := by
  simp only [jsLtChars]
  split_ifs with h1 h2
  · simpa using Or.inl h1
  · simp only [Bool.false_eq_true, false_iff]
    rintro (h | ⟨he, -⟩) <;> omega
  · have he : a.toNat = b.toNat := by omega
    simp [he]

theorem wfTime_spec (s : String) (h : wfTime s = true) :
    ∃ a b c d : Char, s.data = [a, b, ':', c, d] ∧
      48 ≤ a.toNat ∧ a.toNat ≤ 57 ∧ 48 ≤ b.toNat ∧ b.toNat ≤ 57 ∧
      48 ≤ c.toNat ∧ c.toNat ≤ 57 ∧ 48 ≤ d.toNat ∧ d.toNat ≤ 57 ∧
      10 * (a.toNat - 48) + (b.toNat - 48) < 24 ∧
      10 * (c.toNat - 48) + (d.toNat - 48) < 60 := by
  unfold wfTime at h
  rcases hd : s.data with _ | ⟨x1, _ | ⟨x2, _ | ⟨x3, _ | ⟨x4, _ | ⟨x5, tl⟩⟩⟩⟩⟩ <;>
    rw [hd] at h <;> try simp at h
  rcases tl with _ | ⟨x6, tl⟩
  · simp only [Bool.and_eq_true, beq_iff_eq, decide_eq_true_eq] at h
    obtain ⟨⟨⟨⟨⟨⟨hc, h1⟩, h2⟩, h3⟩, h4⟩, h5⟩, h6⟩ := h
    exact ⟨x1, x2, x4, x5, by simp [hd, hc], h1.1, h1.2, h2.1, h2.2,
      h3.1, h3.2, h4.1, h4.2, h5, h6⟩
  · simp at h

theorem digit_ne_colon (a : Char) (h : a.toNat ≤ 57) : (a == ':') = false := by
  rw [beq_eq_false_iff_ne]
  intro he
  subst he
  simp at h

theorem splitOn_colon (a b c d : Char) (ha : (a == ':') = false)
    (hb : (b == ':') = false) (hc : (c == ':') = false)
    (hd : (d == ':') = false) :
    ([a, b, ':', c, d].splitOn ':') = [[a, b], [c, d]] := by
  simp [List.splitOn, List.splitOnP_cons, List.splitOnP_nil, ha, hb, hc, hd]

theorem jsNumber_two (a b : Char) (ha1 : 48 ≤ a.toNat) (ha2 : a.toNat ≤ 57)
    (hb1 : 48 ≤ b.toNat) (hb2 : b.toNat ≤ 57) :
    jsNumber [a, b] =
      some (10 * ((a.toNat : Int) - 48) + ((b.toNat : Int) - 48)) := by
  simp [jsNumber, ha1, ha2, hb1, hb2]

theorem tm_of_wf (s : String) :
    ∀ a b c d : Char, s.data = [a, b, ':', c, d] →
      48 ≤ a.toNat → a.toNat ≤ 57 → 48 ≤ b.toNat → b.toNat ≤ 57 →
      48 ≤ c.toNat → c.toNat ≤ 57 → 48 ≤ d.toNat → d.toNat ≤ 57 →
      timeToMinutes s =
        (10 * ((a.toNat : Int) - 48) + ((b.toNat : Int) - 48)) * 60 +
        (10 * ((c.toNat : Int) - 48) + ((d.toNat : Int) - 48)) := by
  intro a b c d hd ha1 ha2 hb1 hb2 hc1 hc2 hd1 hd2
  unfold timeToMinutes
  rw [hd, splitOn_colon a b c d (digit_ne_colon a ha2) (digit_ne_colon b hb2)
    (digit_ne_colon c hc2) (digit_ne_colon d hd2)]
  rw [List.map_cons, List.map_cons, List.map_nil,
    jsNumber_two a b ha1 ha2 hb1 hb2, jsNumber_two c d hc1 hc2 hd1 hd2]

theorem jsLt_iff_tm {a b : String} (ha : wfTime a = true)
    (hb : wfTime b = true) :
    (jsLt a b = true ↔ timeToMinutes a < timeToMinutes b) := by
  obtain ⟨a1, a2, a3, a4, hda, ha1, ha2, ha3, ha4, ha5, ha6, ha7, ha8, hah, ham⟩ :=
    wfTime_spec a ha
  obtain ⟨b1, b2, b3, b4, hdb, hb1, hb2, hb3, hb4, hb5, hb6, hb7, hb8, hbh, hbm⟩ :=
    wfTime_spec b hb
  rw [tm_of_wf a a1 a2 a3 a4 hda ha1 ha2 ha3 ha4 ha5 ha6 ha7 ha8,
    tm_of_wf b b1 b2 b3 b4 hdb hb1 hb2 hb3 hb4 hb5 hb6 hb7 hb8]
  rw [jsLt, hda, hdb]
  rw [jsLtChars_cons, jsLtChars_cons, jsLtChars_cons, jsLtChars_cons,
    jsLtChars_cons]
  simp only [jsLtChars, show (':').toNat = 58 from rfl]
  simp only [Bool.false_eq_true, and_false, Nat.lt_irrefl, false_or, or_false,
    Nat.le_refl, true_and, and_true, eq_self_iff_true]
  omega

theorem jsLe_iff_tm {a b : String} (ha : wfTime a = true)
    (hb : wfTime b = true) :
    (jsLe a b = true ↔ timeToMinutes a ≤ timeToMinutes b) := by
  rw [jsLe, Bool.not_eq_true']
  rw [show (jsLt b a = false) ↔ ¬(jsLt b a = true) by simp]
  rw [jsLt_iff_tm hb ha]
  exact not_lt

/-- The query-time string `HH:00` is a well-formed time and its minute value is
`60 * hour`, for every hour of the day. -/
theorem currentTimeStr_facts : ∀ h : Fin 24,
    wfTime (currentTimeStr h.val) = true ∧
    timeToMinutes (currentTimeStr h.val) = 60 * (h.val : Int) := by decide

theorem currentTimeStr_wf {hour : Nat} (hh : hour ≤ 23) :
    wfTime (currentTimeStr hour) = true :=
  (currentTimeStr_facts ⟨hour, by omega⟩).1

theorem currentTimeStr_tm {hour : Nat} (hh : hour ≤ 23) :
    timeToMinutes (currentTimeStr hour) = 60 * (hour : Int) :=
  (currentTimeStr_facts ⟨hour, by omega⟩).2

/-! ## Position of a member of a sorted list relative to its ends -/

theorem pairwise_rel_getLast {α : Type} {R : α → α → Prop} :
    ∀ (l : List α), l.Pairwise R → ∀ e ∈ l, ∀ (hne : l ≠ []),
      e = l.getLast hne ∨ R e (l.getLast hne) := by
  intro l
  induction l with
  | nil => intro _ e he; simp at he
  | cons a t ih =>
    intro hp e he hne
    rcases t with _ | ⟨b, t2⟩
    · rcases List.mem_cons.mp he with rfl | he2
      · exact Or.inl rfl
      · simp at he2
    · have hne2 : b :: t2 ≠ [] := by simp
      rw [List.getLast_cons hne2]
      rcases List.mem_cons.mp he with rfl | he2
      · exact Or.inr ((List.pairwise_cons.mp hp).1 _ (List.getLast_mem hne2))
      · exact ih (List.pairwise_cons.mp hp).2 e he2 hne2

theorem pairwise_head_rel {α : Type} {R : α → α → Prop} :
    ∀ (l : List α), l.Pairwise R → ∀ e ∈ l, ∀ (hne : l ≠ []),
      e = l.head hne ∨ R (l.head hne) e := by
  intro l
  cases l with
  | nil => intro _ e he; simp at he
  | cons a t =>
    intro hp e he _
    rcases List.mem_cons.mp he with rfl | he2
    · exact Or.inl rfl
    · exact Or.inr ((List.pairwise_cons.mp hp).1 e he2)

/-! ## Bounds on `progress` -/

theorem progressOf_nonpos {prev next : TideEvent} {hour : Nat}
    (h : timeToMinutes next.time ≤ timeToMinutes prev.time) :
    progressOf prev next hour = 1/2 := by
  have hc : ((timeToMinutes next.time : ℚ)) ≤ ((timeToMinutes prev.time : ℚ)) := by
    exact_mod_cast h
  simp only [progressOf]
  rw [if_neg]
  push_neg
  linarith

theorem progressOf_bounds_of_straddle {prev next : TideEvent} {hour : Nat}
    (h1 : timeToMinutes prev.time ≤ 60 * (hour : Int))
    (h2 : 60 * (hour : Int) < timeToMinutes next.time) :
    0 ≤ progressOf prev next hour ∧ progressOf prev next hour ≤ 1 := by
  have c1 : ((timeToMinutes prev.time : ℚ)) ≤ (hour : ℚ) * 60 := by
    have h1' : ((timeToMinutes prev.time : ℚ)) ≤ ((60 * (hour : Int) : Int) : ℚ) := by
      exact_mod_cast h1
    push_cast at h1'
    linarith
  have c2 : (hour : ℚ) * 60 < ((timeToMinutes next.time : ℚ)) := by
    have h2' : (((60 * (hour : Int) : Int) : ℚ)) < ((timeToMinutes next.time : ℚ)) := by
      exact_mod_cast h2
    push_cast at h2'
    linarith
  simp only [progressOf]
  rw [if_pos (by linarith)]
  constructor
  · apply div_nonneg <;> linarith
  · rw [div_le_one (by linarith)]
    linarith

/-- On a time-sorted sequence of well-formed events, the `progress` computed
for the resolved straddling pair always lies in `[0, 1]`. -/
theorem progress_in_unit {events : List TideEvent} {hour : Nat}
    {prev next : TideEvent}
    (hsorted : events.Pairwise (fun x y => jsLe x.time y.time = true))
    (hwf : ∀ e ∈ events, wfTime e.time = true)
    (hhour : hour ≤ 23) (hne : events ≠ [])
    (hres : resolvePair events (currentTimeStr hour) = (some prev, some next)) :
    0 ≤ progressOf prev next hour ∧ progressOf prev next hour ≤ 1 := by
  rcases h1 : (findStraddle events (currentTimeStr hour)).1 with _ | p0 <;>
    rcases h2 : (findStraddle events (currentTimeStr hour)).2 with _ | n0
  · exact absurd ⟨h1, h2⟩ (findStraddle_not_both_none hne)
  · -- prev synthesized from the last event, next found by the loop
    obtain ⟨l0, hl0⟩ := Option.isSome_iff_exists.mp (List.getLast?_isSome.mpr hne)
    have hrp : resolvePair events (currentTimeStr hour) =
        (some (flipEvent l0), some n0) := by
      simp [resolvePair, h1, h2, hl0]
    have hpn := hres.symm.trans hrp
    simp only [Prod.mk.injEq, Option.some.injEq] at hpn
    obtain ⟨hp, hn⟩ := hpn
    rcases foldl_straddle_snd_some events (none, none) n0 h2 with h' | ⟨hmem, -⟩
    · simp at h'
    have hlast : l0 = events.getLast hne := by
      have h3 := List.getLast?_eq_getLast events hne
      rw [hl0] at h3
      exact Option.some.inj h3
    have hl0in : l0 ∈ events := hlast ▸ List.getLast_mem hne
    have htm : timeToMinutes n0.time ≤ timeToMinutes l0.time := by
      rcases pairwise_rel_getLast events hsorted n0 hmem hne with heq | hR
      · rw [heq, ← hlast]
      · rw [← hlast] at hR
        exact (jsLe_iff_tm (hwf n0 hmem) (hwf l0 hl0in)).mp hR
    have h12 : progressOf prev next hour = 1/2 := by
      rw [hp, hn]
      exact progressOf_nonpos (by simpa [flipEvent] using htm)
    rw [h12]
    norm_num
  · -- prev found by the loop, next synthesized from the first event
    obtain ⟨f0, hf0⟩ := Option.isSome_iff_exists.mp (List.head?_isSome.mpr hne)
    have hrp : resolvePair events (currentTimeStr hour) =
        (some p0, some (flipEvent f0)) := by
      simp [resolvePair, h1, h2, hf0]
    have hpn := hres.symm.trans hrp
    simp only [Prod.mk.injEq, Option.some.injEq] at hpn
    obtain ⟨hp, hn⟩ := hpn
    rcases foldl_straddle_fst_some events (none, none) p0 h1 with h' | ⟨hmem, -⟩
    · simp at h'
    have hhead : f0 = events.head hne := by
      have h3 := List.head?_eq_head hne
      rw [hf0] at h3
      exact Option.some.inj h3
    have hf0in : f0 ∈ events := hhead ▸ List.head_mem hne
    have htm : timeToMinutes f0.time ≤ timeToMinutes p0.time := by
      rcases pairwise_head_rel events hsorted p0 hmem hne with heq | hR
      · rw [heq, ← hhead]
      · rw [← hhead] at hR
        exact (jsLe_iff_tm (hwf f0 hf0in) (hwf p0 hmem)).mp hR
    have h12 : progressOf prev next hour = 1/2 := by
      rw [hp, hn]
      exact progressOf_nonpos (by simpa [flipEvent] using htm)
    rw [h12]
    norm_num
  · -- both found by the loop: the genuinely straddling case
    have hrp : resolvePair events (currentTimeStr hour) = (some p0, some n0) := by
      simp [resolvePair, h1, h2]
    have hpn := hres.symm.trans hrp
    simp only [Prod.mk.injEq, Option.some.injEq] at hpn
    obtain ⟨hp, hn⟩ := hpn
    rcases foldl_straddle_fst_some events (none, none) p0 h1 with h' | ⟨hpmem, hple⟩
    · simp at h'
    rcases foldl_straddle_snd_some events (none, none) n0 h2 with h' | ⟨hnmem, hnlt⟩
    · simp at h'
    have htm1 : timeToMinutes p0.time ≤ 60 * (hour : Int) := by
      have := (jsLe_iff_tm (hwf p0 hpmem) (currentTimeStr_wf hhour)).mp hple
      rwa [currentTimeStr_tm hhour] at this
    have htm2 : 60 * (hour : Int) < timeToMinutes n0.time := by
      have := (jsLt_iff_tm (currentTimeStr_wf hhour) (hwf n0 hnmem)).mp hnlt
      rwa [currentTimeStr_tm hhour] at this
    rw [hp, hn]
    exact progressOf_bounds_of_straddle htm1 htm2

theorem describe_ne_fallback (p n : TideEvent) : describe p n ≠ "推定不可" := by
  intro h
  have e1 : ("満潮" : String).length = 2 := rfl
  have e1' : ("干潮" : String).length = 2 := rfl
  have e2 : ("(" : String).length = 1 := rfl
  have e3 : (") → " : String).length = 4 := rfl
  have e4 : (") 潮位差: " : String).length = 7 := rfl
  have e5 : ("cm" : String).length = 2 := rfl
  have e6 : ("推定不可" : String).length = 4 := rfl
  have hlen := congrArg String.length h
  rcases hp : p.type <;> rcases hq : n.type <;>
    simp only [describe, hp, hq, reduceIte, String.length_append,
      e1, e1', e2, e3, e4, e5, e6] at hlen <;> omega

/-! ## Claim theorems for the tide estimator -/

/-- C4: for the empty event list and any `hourOfDay`, `estimateCurrentFlow`
returns exactly `{direction: 転流, strength: 弱, description: "データなし"}`. -/
theorem claim_C4_empty_events (hour : Nat) :
    estimateCurrentFlow [] hour =
      { direction := FlowDir.tenryu, strength := Strength.weak,
        description := "データなし" } := rfl

/-- C1: for every non-empty event list and every hour in `[0, 23]`,
`estimateCurrentFlow` resolves a straddling pair — a missing boundary is
synthesized by wrapping to the opposite end of the sequence with its type
flipped — so the defensive `推定不可` branch is never taken and the result's
`(direction, strength)` is one of the 3×3 valid pairs. -/
theorem claim_C1_estimate_total (events : List TideEvent) (hour : Nat)
    (hne : events ≠ []) (_hhour : hour ≤ 23) :
    (∃ p n, resolvePair events (currentTimeStr hour) = (some p, some n)) ∧
    (estimateCurrentFlow events hour).description ≠ "推定不可" ∧
    (estimateCurrentFlow events hour).direction ∈
      [FlowDir.south, FlowDir.north, FlowDir.tenryu] ∧
    (estimateCurrentFlow events hour).strength ∈
      [Strength.strong, Strength.medium, Strength.weak] ∧
    ((findStraddle events (currentTimeStr hour)).1 = none →
      ∃ l, events.getLast? = some l ∧
        (resolvePair events (currentTimeStr hour)).1 = some (flipEvent l)) ∧
    ((findStraddle events (currentTimeStr hour)).2 = none →
      ∃ f, events.head? = some f ∧
        (resolvePair events (currentTimeStr hour)).2 = some (flipEvent f)) := by
  obtain ⟨p, n, hres⟩ := resolvePair_some (currentTimeStr hour) hne
  refine ⟨⟨p, n, hres⟩, ?_, ?_, ?_, ?_, ?_⟩
  · rw [estimate_eq hne hres]
    exact describe_ne_fallback p n
  · rcases h : (estimateCurrentFlow events hour).direction <;> simp
  · rcases h : (estimateCurrentFlow events hour).strength <;> simp
  · intro h1
    have h2 : (findStraddle events (currentTimeStr hour)).2 ≠ none := by
      intro h2; exact findStraddle_not_both_none hne ⟨h1, h2⟩
    obtain ⟨n0, hn0⟩ := Option.ne_none_iff_exists'.mp h2
    obtain ⟨l0, hl0⟩ := Option.isSome_iff_exists.mp (List.getLast?_isSome.mpr hne)
    exact ⟨l0, hl0, by simp [resolvePair, h1, hn0, hl0]⟩
  · intro h2
    have h1 : (findStraddle events (currentTimeStr hour)).1 ≠ none := by
      intro h1; exact findStraddle_not_both_none hne ⟨h1, h2⟩
    obtain ⟨p0, hp0⟩ := Option.ne_none_iff_exists'.mp h1
    obtain ⟨f0, hf0⟩ := Option.isSome_iff_exists.mp (List.head?_isSome.mpr hne)
    exact ⟨f0, hf0, by simp [resolvePair, h2, hp0, hf0]⟩

/-- Witness for C1: the single-event day `[{06:00, 200, High}]` queried at hour
18 satisfies the hypotheses, so the estimate resolves a pair and does not fail. -/
theorem claim_C1_estimate_total_witness :
    (([⟨"06:00", 200, TideType.high⟩] : List TideEvent) ≠ [] ∧ (18 : Nat) ≤ 23) ∧
    ((∃ p n, resolvePair [⟨"06:00", 200, TideType.high⟩] (currentTimeStr 18) =
        (some p, some n)) ∧
      (estimateCurrentFlow [⟨"06:00", 200, TideType.high⟩] 18).description ≠
        "推定不可" ∧
      (estimateCurrentFlow [⟨"06:00", 200, TideType.high⟩] 18).direction ∈
        [FlowDir.south, FlowDir.north, FlowDir.tenryu] ∧
      (estimateCurrentFlow [⟨"06:00", 200, TideType.high⟩] 18).strength ∈
        [Strength.strong, Strength.medium, Strength.weak] ∧
      ((findStraddle [⟨"06:00", 200, TideType.high⟩] (currentTimeStr 18)).1 = none →
        ∃ l, ([⟨"06:00", 200, TideType.high⟩] : List TideEvent).getLast? = some l ∧
          (resolvePair [⟨"06:00", 200, TideType.high⟩] (currentTimeStr 18)).1 =
            some (flipEvent l)) ∧
      ((findStraddle [⟨"06:00", 200, TideType.high⟩] (currentTimeStr 18)).2 = none →
        ∃ f, ([⟨"06:00", 200, TideType.high⟩] : List TideEvent).head? = some f ∧
          (resolvePair [⟨"06:00", 200, TideType.high⟩] (currentTimeStr 18)).2 =
            some (flipEvent f))) :=
  ⟨⟨by decide, by decide⟩,
    claim_C1_estimate_total [⟨"06:00", 200, TideType.high⟩] 18 (by decide) (by decide)⟩

/-- C10 (implicit): for every non-empty event list and hour in `[0, 23]`, the
returned direction is never `転流` — that value is produced only by the
empty-input branch and the defensive no-pair fallback. -/
theorem claim_C10_direction_not_tenryu (events : List TideEvent) (hour : Nat)
    (hne : events ≠ []) (_hhour : hour ≤ 23) :
    (estimateCurrentFlow events hour).direction ≠ FlowDir.tenryu := by
  obtain ⟨p, n, hres⟩ := resolvePair_some (currentTimeStr hour) hne
  rw [estimate_eq hne hres]
  by_cases hp : p.type = TideType.high <;> simp [directionOf, hp]

/-- Witness for C10 at the single-event scenario of the spec. -/
theorem claim_C10_direction_not_tenryu_witness :
    (([⟨"06:00", 200, TideType.high⟩] : List TideEvent) ≠ [] ∧ (18 : Nat) ≤ 23) ∧
    (estimateCurrentFlow [⟨"06:00", 200, TideType.high⟩] 18).direction ≠
      FlowDir.tenryu :=
  ⟨⟨by decide, by decide⟩,
    claim_C10_direction_not_tenryu [⟨"06:00", 200, TideType.high⟩] 18
      (by decide) (by decide)⟩

/-- C2: whenever a straddling pair resolves, the returned direction is a
function of the `prev` event's type alone: `南流（下げ潮）` when `prev` is a
high, `北流（上げ潮）` when `prev` is a low, for every choice of `next`. -/
theorem claim_C2_direction_from_prev (events : List TideEvent) (hour : Nat)
    (prev next : TideEvent) (hne : events ≠ [])
    (hres : resolvePair events (currentTimeStr hour) = (some prev, some next)) :
    (estimateCurrentFlow events hour).direction =
      (if prev.type = TideType.high then FlowDir.south else FlowDir.north) := by
  rw [estimate_eq hne hres]
  rfl

/-- Witness for C2: the three-event day of the spec scenario at hour 11, whose
straddling pair is (Low@08:10, High@14:30). -/
theorem claim_C2_direction_from_prev_witness :
    (([⟨"08:10", 45, TideType.low⟩, ⟨"14:30", 210, TideType.high⟩,
        ⟨"20:45", 50, TideType.low⟩] : List TideEvent) ≠ [] ∧
      resolvePair [⟨"08:10", 45, TideType.low⟩, ⟨"14:30", 210, TideType.high⟩,
          ⟨"20:45", 50, TideType.low⟩] (currentTimeStr 11) =
        (some ⟨"08:10", 45, TideType.low⟩, some ⟨"14:30", 210, TideType.high⟩)) ∧
    (estimateCurrentFlow [⟨"08:10", 45, TideType.low⟩,
        ⟨"14:30", 210, TideType.high⟩, ⟨"20:45", 50, TideType.low⟩] 11).direction =
      (if (⟨"08:10", 45, TideType.low⟩ : TideEvent).type = TideType.high then
        FlowDir.south else FlowDir.north) :=
  ⟨⟨by decide, by decide⟩,
    claim_C2_direction_from_prev
      [⟨"08:10", 45, TideType.low⟩, ⟨"14:30", 210, TideType.high⟩,
        ⟨"20:45", 50, TideType.low⟩] 11
      ⟨"08:10", 45, TideType.low⟩ ⟨"14:30", 210, TideType.high⟩
      (by decide) (by decide)⟩

/-- C3: whenever a straddling pair resolves on a sorted sequence of
well-formed times, `progress` is the elapsed fraction of the `prev → next`
interval, lies in `[0, 1]`, defaults to `0.5` on a non-positive interval, and
strength is determined from progress exactly by the 0.15/0.35/0.65/0.85
thresholds — in particular `0.5 ↦ 強` and progress near `0` or `1` `↦ 弱`. -/
theorem claim_C3_progress_strength (events : List TideEvent) (hour : Nat)
    (prev next : TideEvent)
    (hsorted : events.Pairwise (fun x y => jsLe x.time y.time = true))
    (hwf : ∀ e ∈ events, wfTime e.time = true)
    (hhour : hour ≤ 23) (hne : events ≠ [])
    (hres : resolvePair events (currentTimeStr hour) = (some prev, some next)) :
    0 ≤ progressOf prev next hour ∧ progressOf prev next hour ≤ 1 ∧
    (estimateCurrentFlow events hour).strength =
      strengthOf (progressOf prev next hour) ∧
    (timeToMinutes next.time - timeToMinutes prev.time ≤ 0 →
      progressOf prev next hour = 1/2) ∧
    strengthOf (1/2) = Strength.strong ∧
    (∀ q : ℚ, (q < 15/100 ∨ q > 85/100) → strengthOf q = Strength.weak) ∧
    (∀ q : ℚ, ¬(q < 15/100 ∨ q > 85/100) → (q < 35/100 ∨ q > 65/100) →
      strengthOf q = Strength.medium) ∧
    (∀ q : ℚ, 35/100 ≤ q → q ≤ 65/100 → strengthOf q = Strength.strong) := by
  obtain ⟨hb1, hb2⟩ := progress_in_unit hsorted hwf hhour hne hres
  refine ⟨hb1, hb2, ?_, ?_, ?_, ?_, ?_, ?_⟩
  · rw [estimate_eq hne hres]
  · intro h
    exact progressOf_nonpos (by omega)
  · rw [strengthOf]
    norm_num
  · intro q h
    rw [strengthOf, if_pos h]
  · intro q h1 h2
    rw [strengthOf, if_neg h1, if_pos h2]
  · intro q h1 h2
    have hA : ¬(q < 15/100 ∨ q > 85/100) := by
      push_neg
      constructor <;> linarith
    have hB : ¬(q < 35/100 ∨ q > 65/100) := by
      push_neg
      constructor <;> linarith
    rw [strengthOf, if_neg hA, if_neg hB]

/-- Witness for C3 at the three-event scenario of the spec, hour 11, with the
resolved pair (Low@08:10, High@14:30). -/
theorem claim_C3_progress_strength_witness :
    (([⟨"08:10", 45, TideType.low⟩, ⟨"14:30", 210, TideType.high⟩,
        ⟨"20:45", 50, TideType.low⟩] : List TideEvent).Pairwise
        (fun x y => jsLe x.time y.time = true) ∧
      (∀ e ∈ ([⟨"08:10", 45, TideType.low⟩, ⟨"14:30", 210, TideType.high⟩,
        ⟨"20:45", 50, TideType.low⟩] : List TideEvent), wfTime e.time = true) ∧
      (11 : Nat) ≤ 23 ∧
      ([⟨"08:10", 45, TideType.low⟩, ⟨"14:30", 210, TideType.high⟩,
        ⟨"20:45", 50, TideType.low⟩] : List TideEvent) ≠ [] ∧
      resolvePair [⟨"08:10", 45, TideType.low⟩, ⟨"14:30", 210, TideType.high⟩,
          ⟨"20:45", 50, TideType.low⟩] (currentTimeStr 11) =
        (some ⟨"08:10", 45, TideType.low⟩, some ⟨"14:30", 210, TideType.high⟩)) ∧
    (0 ≤ progressOf ⟨"08:10", 45, TideType.low⟩ ⟨"14:30", 210, TideType.high⟩ 11 ∧
      progressOf ⟨"08:10", 45, TideType.low⟩ ⟨"14:30", 210, TideType.high⟩ 11 ≤ 1 ∧
      (estimateCurrentFlow [⟨"08:10", 45, TideType.low⟩,
          ⟨"14:30", 210, TideType.high⟩, ⟨"20:45", 50, TideType.low⟩] 11).strength =
        strengthOf (progressOf ⟨"08:10", 45, TideType.low⟩
          ⟨"14:30", 210, TideType.high⟩ 11) ∧
      (timeToMinutes (⟨"14:30", 210, TideType.high⟩ : TideEvent).time -
          timeToMinutes (⟨"08:10", 45, TideType.low⟩ : TideEvent).time ≤ 0 →
        progressOf ⟨"08:10", 45, TideType.low⟩ ⟨"14:30", 210, TideType.high⟩ 11 =
          1/2) ∧
      strengthOf (1/2) = Strength.strong ∧
      (∀ q : ℚ, (q < 15/100 ∨ q > 85/100) → strengthOf q = Strength.weak) ∧
      (∀ q : ℚ, ¬(q < 15/100 ∨ q > 85/100) → (q < 35/100 ∨ q > 65/100) →
        strengthOf q = Strength.medium) ∧
      (∀ q : ℚ, 35/100 ≤ q → q ≤ 65/100 → strengthOf q = Strength.strong)) :=
  ⟨⟨by decide, by decide, by decide, by decide, by decide⟩,
    claim_C3_progress_strength
      [⟨"08:10", 45, TideType.low⟩, ⟨"14:30", 210, TideType.high⟩,
        ⟨"20:45", 50, TideType.low⟩] 11
      ⟨"08:10", 45, TideType.low⟩ ⟨"14:30", 210, TideType.high⟩
      (by decide) (by decide) (by decide) (by decide) (by decide)⟩

/-- Counterexample for C6: at the spec's three-event scenario and hour 11 the
code computes `progress = (11·60 − 490)/(870 − 490) = 17/38 ≈ 0.447`, which is
not `≈ 0.55` (it differs from 0.55 by more than 0.1). -/
theorem claim_C6_counterexample :
    resolvePair [⟨"08:10", 45, TideType.low⟩, ⟨"14:30", 210, TideType.high⟩,
        ⟨"20:45", 50, TideType.low⟩] (currentTimeStr 11) =
      (some ⟨"08:10", 45, TideType.low⟩, some ⟨"14:30", 210, TideType.high⟩) ∧
    progressOf ⟨"08:10", 45, TideType.low⟩ ⟨"14:30", 210, TideType.high⟩ 11 =
      17/38 ∧
    1/10 ≤ |(17 : ℚ)/38 - 55/100| := by
  have t1 : timeToMinutes "08:10" = 490 := by decide
  have t2 : timeToMinutes "14:30" = 870 := by decide
  refine ⟨by decide, ?_, ?_⟩
  · simp only [progressOf, t1, t2]
    norm_num
  · have h : (17 : ℚ)/38 - 55/100 = -(39/380) := by norm_num
    rw [h, abs_neg, abs_of_pos (by norm_num)]
    norm_num

/-- C6 as amended: the straddling pair is (Low@08:10, High@14:30), progress is
`(11·60 − 490)/(870 − 490) = 17/38 ≈ 0.45`, and the result is direction
`北流（上げ潮）` with strength `強`. -/
theorem claim_C6_scenario :
    resolvePair [⟨"08:10", 45, TideType.low⟩, ⟨"14:30", 210, TideType.high⟩,
        ⟨"20:45", 50, TideType.low⟩] (currentTimeStr 11) =
      (some ⟨"08:10", 45, TideType.low⟩, some ⟨"14:30", 210, TideType.high⟩) ∧
    progressOf ⟨"08:10", 45, TideType.low⟩ ⟨"14:30", 210, TideType.high⟩ 11 =
      17/38 ∧
    estimateCurrentFlow [⟨"08:10", 45, TideType.low⟩,
        ⟨"14:30", 210, TideType.high⟩, ⟨"20:45", 50, TideType.low⟩] 11 =
      { direction := FlowDir.north, strength := Strength.strong,
        description := "干潮(08:10) → 満潮(14:30) 潮位差: 165cm" } := by
  have t1 : timeToMinutes "08:10" = 490 := by decide
  have t2 : timeToMinutes "14:30" = 870 := by decide
  have hres : resolvePair [⟨"08:10", 45, TideType.low⟩,
      ⟨"14:30", 210, TideType.high⟩, ⟨"20:45", 50, TideType.low⟩]
      (currentTimeStr 11) =
      (some ⟨"08:10", 45, TideType.low⟩, some ⟨"14:30", 210, TideType.high⟩) := by
    decide
  have hprog : progressOf ⟨"08:10", 45, TideType.low⟩
      ⟨"14:30", 210, TideType.high⟩ 11 = 17/38 := by
    simp only [progressOf, t1, t2]
    norm_num
  refine ⟨hres, hprog, ?_⟩
  rw [estimate_eq (by decide) hres]
  simp only [CurrentFlow.mk.injEq]
  refine ⟨by decide, ?_, by decide⟩
  rw [hprog, strengthOf]
  norm_num

/-! ## The JS string order is a (non-strict) total preorder -/

theorem jsLtChars_asymm : ∀ l m : List Char, jsLtChars l m = true →
    jsLtChars m l = false := by
  intro l
  induction l with
  | nil =>
    intro m h
    cases m with
    | nil => simp [jsLtChars] at h
    | cons b bs => simp [jsLtChars]
  | cons a as ih =>
    intro m h
    cases m with
    | nil => simp [jsLtChars] at h
    | cons b bs =>
      rw [jsLtChars_cons] at h
      rw [← Bool.not_eq_true, jsLtChars_cons]
      rcases h with h | ⟨he, ht⟩ <;> rintro (h' | ⟨he', ht'⟩) <;> try omega
      exact absurd ht' (by rw [ih _ ht]; simp)

theorem jsLtChars_connex : ∀ l n : List Char, jsLtChars l n = true →
    ∀ m : List Char, jsLtChars l m = true ∨ jsLtChars m n = true := by
  intro l
  induction l with
  | nil =>
    intro n h m
    cases n with
    | nil => simp [jsLtChars] at h
    | cons b bs =>
      cases m with
      | nil => exact Or.inr (by simp [jsLtChars])
      | cons c cs => exact Or.inl (by simp [jsLtChars])
  | cons a as ih =>
    intro n h m
    cases n with
    | nil => simp [jsLtChars] at h
    | cons b bs =>
      cases m with
      | nil => exact Or.inr (by simp [jsLtChars])
      | cons c cs =>
        rw [jsLtChars_cons] at h
        rw [jsLtChars_cons, jsLtChars_cons]
        by_cases h1 : a.toNat < c.toNat
        · exact Or.inl (Or.inl h1)
        · by_cases h2 : c.toNat < b.toNat
          · exact Or.inr (Or.inl h2)
          · rcases h with h | ⟨he, ht⟩
            · omega
            · rcases ih bs ht cs with h' | h'
              · exact Or.inl (Or.inr ⟨by omega, h'⟩)
              · exact Or.inr (Or.inr ⟨by omega, h'⟩)

theorem jsLe_total (a b : String) : (jsLe a b || jsLe b a) = true := by
  by_cases h : jsLtChars b.data a.data = true
  · simp [jsLe, jsLt, jsLtChars_asymm _ _ h]
  · rw [Bool.not_eq_true] at h
    simp [jsLe, jsLt, h]

theorem jsLe_trans {a b c : String} (h1 : jsLe a b = true) (h2 : jsLe b c = true) :
    jsLe a c = true := by
  simp only [jsLe, jsLt, Bool.not_eq_true'] at h1 h2 ⊢
  cases hca : jsLtChars c.data a.data with
  | false => rfl
  | true =>
    rcases jsLtChars_connex _ _ hca b.data with h' | h'
    · exact absurd h' (by rw [h2]; simp)
    · exact absurd h' (by rw [h1]; simp)

/-- C5: the sequence produced by `parseTideEvents` is sorted ascending by time
under the lexicographic HH:MM string order, contains no sentinel `--:--`
entry (nor an empty one), and every surviving entry is tagged high/low by its
source list with height the integer parse of its `cm` field. -/
theorem claim_C5_parseTideEvents (high low : List RawEntry) :
    (parseTideEvents high low).Pairwise (fun a b => jsLe a.time b.time = true) ∧
    (∀ e ∈ parseTideEvents high low, e.time ≠ "--:--" ∧ e.time ≠ "") ∧
    (∀ e ∈ parseTideEvents high low,
      (e.type = TideType.high →
        ∃ r ∈ high, e.time = r.time ∧ e.height = jsParseInt r.cm) ∧
      (e.type = TideType.low →
        ∃ r ∈ low, e.time = r.time ∧ e.height = jsParseInt r.cm)) := by
  have hmem : ∀ e ∈ parseTideEvents high low,
      (∃ r ∈ high, keepEntry r = true ∧
        e = ⟨r.time, jsParseInt r.cm, TideType.high⟩) ∨
      (∃ r ∈ low, keepEntry r = true ∧
        e = ⟨r.time, jsParseInt r.cm, TideType.low⟩) := by
    intro e he
    simp only [parseTideEvents] at he
    rw [List.mem_mergeSort] at he
    rcases List.mem_append.mp he with h | h
    · obtain ⟨r, hr, hre⟩ := List.mem_map.mp h
      exact Or.inl ⟨r, (List.mem_filter.mp hr).1, (List.mem_filter.mp hr).2,
        hre.symm⟩
    · obtain ⟨r, hr, hre⟩ := List.mem_map.mp h
      exact Or.inr ⟨r, (List.mem_filter.mp hr).1, (List.mem_filter.mp hr).2,
        hre.symm⟩
  refine ⟨?_, ?_, ?_⟩
  · simp only [parseTideEvents]
    exact @List.sorted_mergeSort TideEvent (fun a b => jsLe a.time b.time)
      (fun a b c hab hbc => jsLe_trans hab hbc)
      (fun a b => jsLe_total a.time b.time) _
  · intro e he
    rcases hmem e he with ⟨r, -, hk, hre⟩ | ⟨r, -, hk, hre⟩ <;>
    · rw [hre]
      simp only [keepEntry, Bool.and_eq_true, bne_iff_ne] at hk
      exact ⟨hk.2, hk.1⟩
  · intro e he
    rcases hmem e he with ⟨r, hrin, -, hre⟩ | ⟨r, hrin, -, hre⟩
    · refine ⟨fun _ => ⟨r, hrin, by rw [hre], by rw [hre]⟩, fun ht => ?_⟩
      rw [hre] at ht
      simp at ht
    · refine ⟨fun ht => ?_, fun _ => ⟨r, hrin, by rw [hre], by rw [hre]⟩⟩
      rw [hre] at ht
      simp at ht

/-! ## Flow-field simulator (`src/components/AkashiStraitMap.tsx`)

Randomness (`Math.random()` draws) is supplied by explicit oracles, and the
floating-point `cos/sin` of the jittered flow angle is abstracted as the
oracle-supplied displacement direction `TickRand.vec`; the claims proved below
hold for every choice of these values. -/

/-- `FlowDirection = "south" | "north" | "slack"`. -/
inductive MapDir
  | south
  | north
  | slack
deriving DecidableEq

/-- `getBaseSpeed()`: 2.5 / 1.5 / 0.7 by strength.  (`FlowStrength`'s three
values `"strong" | "medium" | "weak"` are represented by `Strength`.) -/
def getBaseSpeed : Strength → ℚ
  | Strength.strong => 5/2
  | Strength.medium => 3/2
  | Strength.weak => 7/10

/-- `getParticleCount()`: 300 / 180 / 80 by strength. -/
def getParticleCount : Strength → Nat
  | Strength.strong => 300
  | Strength.medium => 180
  | Strength.weak => 80

/-- `NORTH_COAST` (canvas-relative coordinates for an 800×600 base). -/
def NORTH_COAST : List (ℚ × ℚ) :=
  [(0, 145), (40, 140), (80, 130), (110, 122), (140, 118),
   (170, 120), (200, 128), (230, 135), (260, 130), (290, 125),
   (310, 118), (330, 110), (350, 105), (380, 108), (410, 115),
   (440, 120), (470, 118), (500, 112), (530, 108), (560, 110),
   (590, 115), (620, 120), (650, 125), (680, 130), (720, 138),
   (760, 145), (800, 150)]

/-- `SOUTH_COAST`. -/
def SOUTH_COAST : List (ℚ × ℚ) :=
  [(0, 420), (40, 430), (80, 445), (110, 455), (140, 458),
   (170, 455), (200, 448), (230, 440), (260, 445), (290, 452),
   (310, 460), (330, 468), (350, 472), (380, 468), (410, 460),
   (440, 455), (470, 458), (500, 465), (530, 470), (560, 468),
   (590, 462), (620, 455), (650, 450), (680, 445), (720, 438),
   (760, 430), (800, 425)]

/-- The `sizeRef` contents: canvas width, height, and `scale = w / 800`. -/
structure SizeInfo where
  w : ℚ
  h : ℚ
  scale : ℚ
deriving DecidableEq

/-- The coast-interpolation loop of `isInWater`: find the first segment whose
x-range contains `nx` (then `break`), linearly interpolate its y; if no
segment matches, keep the default initial value. -/
def interpY : List (ℚ × ℚ) → ℚ → ℚ → ℚ
  | p1 :: p2 :: rest, dflt, nx =>
    if p1.1 ≤ nx ∧ nx ≤ p2.1 then
      p1.2 + ((nx - p1.1) / (p2.1 - p1.1)) * (p2.2 - p1.2)
    else interpY (p2 :: rest) dflt nx
  | _, dflt, _ => dflt

/-- `isInWater(x, y)` (lines 80–104): interpolate both coastlines at
`nx = (x / w) * 800` (defaults 145 / 420) and test
`y > northY*scale + margin && y < southY*scale - margin` with
`margin = 15*scale`. -/
def isInWater (sz : SizeInfo) (x y : ℚ) : Bool :=
  let nx := (x / sz.w) * 800
  let northY := interpY NORTH_COAST 145 nx
  let southY := interpY SOUTH_COAST 420 nx
  let margin := 15 * sz.scale
  decide (northY * sz.scale + margin < y) &&
    decide (y < southY * sz.scale - margin)

/-- `Particle` (lines 36–43). -/
structure Particle where
  x : ℚ
  y : ℚ
  speed : ℚ
  opacity : ℚ
  life : ℚ
  maxLife : ℚ
deriving DecidableEq

/-- The `Math.random()` draws consumed by one `createParticle()` call:
position candidates for each rejection-sampling attempt, and the speed,
maxLife and initial-age draws. -/
structure SpawnRand where
  pos : Nat → ℚ × ℚ
  speedR : ℚ
  lifeR : ℚ
  ageR : ℚ

/-- The candidate point of rejection-sampling attempt `i`:
`x = random * w`, `y = 150*scale + random * (270*scale)`. -/
def samplePoint (sz : SizeInfo) (draw : Nat → ℚ × ℚ) (i : Nat) : ℚ × ℚ :=
  ((draw i).1 * sz.w, 150 * sz.scale + (draw i).2 * (270 * sz.scale))

/-- The `do { … } while (!isInWater(x, y) && attempts < 20)` loop of
`createParticle` (lines 109–114), returning the accepted point and the number
of attempts made.  The loop increments `attempts` once per iteration and stops
at 20, so the structural `fuel` parameter (always called with 20) bounds the
recursion; the fuel-exhausted base case is unreachable from `fuel = 20,
attempts = 0` and mirrors the loop-exit result. -/
def spawnLoop (sz : SizeInfo) (draw : Nat → ℚ × ℚ) :
    Nat → Nat → (ℚ × ℚ) × Nat
  | 0, attempts => (samplePoint sz draw attempts, attempts + 1)
  | fuel + 1, attempts =>
    let p := samplePoint sz draw attempts
    let a := attempts + 1
    if isInWater sz p.1 p.2 = false ∧ a < 20 then spawnLoop sz draw fuel a
    else (p, a)

/-- `createParticle()` (lines 106–126): rejection-sample a position, then
`maxLife = 100 + random*200`, `speed = baseSpeed * (0.5 + random*1.0) * scale`,
`opacity = 0`, `life = random * maxLife` (staggered initial age). -/
def createParticle (sz : SizeInfo) (baseSpeed : ℚ) (r : SpawnRand) : Particle :=
  let xy := (spawnLoop sz r.pos 20 0).1
  let maxLife := 100 + r.lifeR * 200
  { x := xy.1, y := xy.2,
    speed := baseSpeed * (1/2 + r.speedR * 1) * sz.scale,
    opacity := 0,
    life := r.ageR * maxLife,
    maxLife := maxLife }

/-- The particle-init effect (lines 150–154), the spec's `configure`: the
population is rebuilt from scratch with the strength-derived count whenever
direction or strength changes. -/
def configure (sz : SizeInfo) (strength : Strength) (draws : Nat → SpawnRand) :
    List Particle :=
  (List.range (getParticleCount strength)).map
    (fun i => createParticle sz (getBaseSpeed strength) (draws i))

/-- The trapezoidal fade of lines 268–270:
`opacity = min(min(life/30, 1), max(0, 1 - (life - maxLife + 30)/30))`. -/
def fadeOpacity (life maxLife : ℚ) : ℚ :=
  min (min (life / 30) 1) (max 0 (1 - (life - maxLife + 30) / 30))

/-- The randomness consumed for one particle in one `animate` frame: the
`(cos θ, sin θ)` displacement direction of the jittered flow angle, and the
spawn draws used if the particle is replaced. -/
structure TickRand where
  vec : ℚ × ℚ
  spawn : SpawnRand

/-- The per-particle body of the `animate` loop (lines 263–299): age, fade,
replace in place on expiry; otherwise move along the flow direction (slack
dampening 0.2), wrap around the box, and replace in place when the new
position leaves the water. -/
def tickParticle (sz : SizeInfo) (dir : MapDir) (strength : Strength)
    (r : TickRand) (p : Particle) : Particle :=
  let life := p.life + 1
  let opacity := fadeOpacity life p.maxLife
  if life > p.maxLife then
    { createParticle sz (getBaseSpeed strength) r.spawn with life := 0 }
  else
    let speedMult : ℚ := if dir = MapDir.slack then 2/10 else 1
    let x1 := p.x + r.vec.1 * p.speed * speedMult
    let y1 := p.y + r.vec.2 * p.speed * speedMult
    let x2 := if x1 > sz.w + 10 then (-10 : ℚ) else x1
    let x3 := if x2 < -10 then sz.w + 10 else x2
    let y2 := if y1 > sz.h then 150 * sz.scale else y1
    let y3 := if y2 < 140 * sz.scale then 420 * sz.scale else y2
    if isInWater sz x3 y3 = false then
      { createParticle sz (getBaseSpeed strength) r.spawn with life := 0 }
    else
      { x := x3, y := y3, speed := p.speed, opacity := opacity,
        life := life, maxLife := p.maxLife }

/-- One `animate` frame over the whole population (index-threaded so each
particle consumes its own randomness). -/
def tick (sz : SizeInfo) (dir : MapDir) (strength : Strength)
    (rnd : Nat → TickRand) : List Particle → Nat → List Particle
  | [], _ => []
  | p :: ps, i =>
    tickParticle sz dir strength (rnd i) p :: tick sz dir strength rnd ps (i + 1)

/-- `n` consecutive animation frames. -/
def tickN (sz : SizeInfo) (dir : MapDir) (strength : Strength)
    (rnds : Nat → Nat → TickRand) : Nat → List Particle → List Particle
  | 0, ps => ps
  | k + 1, ps => tickN sz dir strength rnds k (tick sz dir strength (rnds k) ps 0)

/-- The `Math.random() ∈ [0, 1)` contract for the draws of one spawn. -/
def ValidSpawn (r : SpawnRand) : Prop :=
  (0 ≤ r.speedR ∧ r.speedR < 1) ∧ (0 ≤ r.lifeR ∧ r.lifeR < 1) ∧
  (0 ≤ r.ageR ∧ r.ageR < 1) ∧
  ∀ i, (0 ≤ (r.pos i).1 ∧ (r.pos i).1 < 1) ∧
    (0 ≤ (r.pos i).2 ∧ (r.pos i).2 < 1)

/-- An all-zeros draw source (a legal value of `Math.random()`). -/
def zeroSpawn : SpawnRand :=
  { pos := fun _ => (0, 0), speedR := 0, lifeR := 0, ageR := 0 }

theorem zeroSpawn_valid : ValidSpawn zeroSpawn :=
  ⟨⟨le_refl 0, zero_lt_one⟩, ⟨le_refl 0, zero_lt_one⟩, ⟨le_refl 0, zero_lt_one⟩,
    fun _ => ⟨⟨le_refl 0, zero_lt_one⟩, le_refl 0, zero_lt_one⟩⟩

/-! ## C7: constant population size -/

theorem tick_length (sz : SizeInfo) (dir : MapDir) (strength : Strength)
    (rnd : Nat → TickRand) :
    ∀ (ps : List Particle) (i : Nat),
      (tick sz dir strength rnd ps i).length = ps.length := by
  intro ps
  induction ps with
  | nil => intro i; rfl
  | cons p t ih => intro i; simp [tick, ih]

theorem tickN_length (sz : SizeInfo) (dir : MapDir) (strength : Strength)
    (rnds : Nat → Nat → TickRand) :
    ∀ (n : Nat) (ps : List Particle),
      (tickN sz dir strength rnds n ps).length = ps.length := by
  intro n
  induction n with
  | zero => intro ps; rfl
  | succ k ih =>
    intro ps
    rw [tickN, ih, tick_length]

/-- C7: after any number of animation frames, the population size equals the
strength-derived count fixed at the last `configure` — expired or
out-of-water particles are replaced in place, never removed. -/
theorem claim_C7_population_constant (sz : SizeInfo) (dir : MapDir)
    (strength : Strength) (init : Nat → SpawnRand)
    (rnds : Nat → Nat → TickRand) (n : Nat) :
    (configure sz strength init).length = getParticleCount strength ∧
    (tickN sz dir strength rnds n (configure sz strength init)).length =
      getParticleCount strength := by
  have hc : (configure sz strength init).length = getParticleCount strength := by
    simp [configure]
  exact ⟨hc, by rw [tickN_length, hc]⟩

/-! ## C8: opacity stays in [0, 1] -/

theorem fadeOpacity_bounds (life maxLife : ℚ) (h : 0 ≤ life) :
    0 ≤ fadeOpacity life maxLife ∧ fadeOpacity life maxLife ≤ 1 := by
  unfold fadeOpacity
  constructor
  · apply le_min
    · exact le_min (by positivity) (by norm_num)
    · exact le_max_left 0 _
  · exact le_trans (min_le_left _ _) (min_le_right _ _)

theorem createParticle_life_nonneg {r : SpawnRand} (hr : ValidSpawn r)
    (sz : SizeInfo) (baseSpeed : ℚ) :
    0 ≤ (createParticle sz baseSpeed r).life ∧
    (createParticle sz baseSpeed r).opacity = 0 := by
  obtain ⟨-, ⟨hl, -⟩, ⟨ha, -⟩, -⟩ := hr
  refine ⟨?_, rfl⟩
  show 0 ≤ r.ageR * (100 + r.lifeR * 200)
  apply mul_nonneg ha
  linarith

theorem tickParticle_good {r : TickRand} (hr : ValidSpawn r.spawn)
    (sz : SizeInfo) (dir : MapDir) (strength : Strength) {p : Particle}
    (hp : 0 ≤ p.life) :
    0 ≤ (tickParticle sz dir strength r p).life ∧
    0 ≤ (tickParticle sz dir strength r p).opacity ∧
    (tickParticle sz dir strength r p).opacity ≤ 1 := by
  obtain ⟨hcl, hco⟩ := createParticle_life_nonneg hr sz (getBaseSpeed strength)
  have hfade := fadeOpacity_bounds (p.life + 1) p.maxLife (by linarith)
  simp only [tickParticle]
  split_ifs <;>
    first
      | exact ⟨le_refl 0, le_refl 0, by rw [hco]; norm_num⟩
      | exact ⟨show (0 : ℚ) ≤ p.life + 1 by linarith, hfade.1, hfade.2⟩

theorem tick_good {sz : SizeInfo} {dir : MapDir} {strength : Strength}
    {rnd : Nat → TickRand} (hrnd : ∀ i, ValidSpawn ((rnd i).spawn)) :
    ∀ (ps : List Particle) (i : Nat), (∀ p ∈ ps, 0 ≤ p.life) →
      ∀ q ∈ tick sz dir strength rnd ps i,
        0 ≤ q.life ∧ 0 ≤ q.opacity ∧ q.opacity ≤ 1 := by
  intro ps
  induction ps with
  | nil => intro i _ q hq; simp [tick] at hq
  | cons p t ih =>
    intro i hps q hq
    rcases List.mem_cons.mp hq with rfl | hq2
    · exact tickParticle_good (hrnd i) sz dir strength
        (hps p (List.mem_cons_self p t))
    · exact ih (i + 1) (fun x hx => hps x (List.mem_cons_of_mem p hx)) q hq2

theorem tickN_good {sz : SizeInfo} {dir : MapDir} {strength : Strength}
    {rnds : Nat → Nat → TickRand}
    (hrnds : ∀ k i, ValidSpawn ((rnds k i).spawn)) :
    ∀ (n : Nat) (ps : List Particle),
      (∀ p ∈ ps, 0 ≤ p.life ∧ 0 ≤ p.opacity ∧ p.opacity ≤ 1) →
      ∀ q ∈ tickN sz dir strength rnds n ps,
        0 ≤ q.life ∧ 0 ≤ q.opacity ∧ q.opacity ≤ 1 := by
  intro n
  induction n with
  | zero => intro ps hps q hq; exact hps q hq
  | succ k ih =>
    intro ps hps q hq
    rw [tickN] at hq
    refine ih _ ?_ q hq
    intro x hx
    exact tick_good (hrnds k) ps 0 (fun p hp => (hps p hp).1) x hx

/-- C8: for every particle and tick, the opacity computed by the trapezoidal
fade (the minimum of the fade-in and fade-out ramps) stays within `[0, 1]`:
the fade function is bounded on every non-negative age, and every particle of
the simulation (from `configure` through any number of frames, for any
`Math.random()`-conforming oracles) has opacity in `[0, 1]`. -/
theorem claim_C8_opacity_in_unit (sz : SizeInfo) (dir : MapDir)
    (strength : Strength) (init : Nat → SpawnRand)
    (rnds : Nat → Nat → TickRand) (n : Nat)
    (hinit : ∀ i, ValidSpawn (init i))
    (hrnds : ∀ k i, ValidSpawn ((rnds k i).spawn)) :
    (∀ life maxLife : ℚ, 0 ≤ life →
      0 ≤ fadeOpacity life maxLife ∧ fadeOpacity life maxLife ≤ 1) ∧
    ∀ p ∈ tickN sz dir strength rnds n (configure sz strength init),
      0 ≤ p.opacity ∧ p.opacity ≤ 1 := by
  refine ⟨fun life maxLife h => fadeOpacity_bounds life maxLife h, ?_⟩
  intro p hp
  have hconf : ∀ q ∈ configure sz strength init,
      0 ≤ q.life ∧ 0 ≤ q.opacity ∧ q.opacity ≤ 1 := by
    intro q hq
    simp only [configure, List.mem_map] at hq
    obtain ⟨i, -, hqe⟩ := hq
    obtain ⟨hl, ho⟩ := createParticle_life_nonneg (hinit i) sz (getBaseSpeed strength)
    rw [← hqe]
    exact ⟨hl, by rw [ho], by rw [ho]; norm_num⟩
  have := tickN_good hrnds n (configure sz strength init) hconf p hp
  exact ⟨this.2.1, this.2.2⟩

/-- Witness for C8: all-zero draws satisfy the `Math.random()` contract. -/
theorem claim_C8_opacity_in_unit_witness :
    ((∀ i : Nat, ValidSpawn ((fun _ : Nat => zeroSpawn) i)) ∧
      (∀ k i : Nat,
        ValidSpawn (((fun _ _ : Nat => TickRand.mk (1, 0) zeroSpawn) k i).spawn))) ∧
    ((∀ life maxLife : ℚ, 0 ≤ life →
        0 ≤ fadeOpacity life maxLife ∧ fadeOpacity life maxLife ≤ 1) ∧
      ∀ p ∈ tickN ⟨800, 600, 1⟩ MapDir.south Strength.weak
          (fun _ _ => TickRand.mk (1, 0) zeroSpawn) 1
          (configure ⟨800, 600, 1⟩ Strength.weak (fun _ => zeroSpawn)),
        0 ≤ p.opacity ∧ p.opacity ≤ 1) :=
  ⟨⟨fun _ => zeroSpawn_valid, fun _ _ => zeroSpawn_valid⟩,
    claim_C8_opacity_in_unit ⟨800, 600, 1⟩ MapDir.south Strength.weak
      (fun _ => zeroSpawn) (fun _ _ => TickRand.mk (1, 0) zeroSpawn) 1
      (fun _ => zeroSpawn_valid) (fun _ _ => zeroSpawn_valid)⟩

/-! ## C9: the rejection-sampling spawn loop -/

theorem spawnLoop_spec (sz : SizeInfo) (draw : Nat → ℚ × ℚ) :
    ∀ (fuel attempts : Nat), fuel + attempts = 20 → 1 ≤ fuel →
      ∃ k, attempts ≤ k ∧ k < 20 ∧
        spawnLoop sz draw fuel attempts = (samplePoint sz draw k, k + 1) ∧
        (isInWater sz (samplePoint sz draw k).1 (samplePoint sz draw k).2 = true ∨
          k + 1 = 20) := by
  intro fuel
  induction fuel with
  | zero => intro attempts _ h1; omega
  | succ f ih =>
    intro attempts hsum _
    by_cases hc : isInWater sz (samplePoint sz draw attempts).1
        (samplePoint sz draw attempts).2 = false ∧ attempts + 1 < 20
    · obtain ⟨k, hk1, hk2, hk3, hk4⟩ := ih (attempts + 1) (by omega) (by omega)
      refine ⟨k, by omega, hk2, ?_, hk4⟩
      rw [spawnLoop, if_pos hc]
      exact hk3
    · refine ⟨attempts, le_refl attempts, by omega, ?_, ?_⟩
      · rw [spawnLoop, if_neg hc]
      · rcases Decidable.not_and_iff_or_not.mp hc with h | h
        · exact Or.inl (by rwa [Bool.not_eq_false] at h)
        · exact Or.inr (by omega)

/-- C9 as amended: the spawn loop makes at most 20 attempts (the code's cap;
the spec's "~30–40" does not match), always terminates, and the particle is
placed at the last sampled point even when that point is still on land (the
loop only exits early on a water hit; otherwise it runs out its 20 attempts
and accepts the final sample). -/
theorem claim_C9_spawn_bounded (sz : SizeInfo) (draw : Nat → ℚ × ℚ) :
    (spawnLoop sz draw 20 0).2 ≤ 20 ∧
    ∃ k, k < 20 ∧
      spawnLoop sz draw 20 0 = (samplePoint sz draw k, k + 1) ∧
      (isInWater sz (samplePoint sz draw k).1 (samplePoint sz draw k).2 = true ∨
        k + 1 = 20) := by
  obtain ⟨k, -, hk2, hk3, hk4⟩ := spawnLoop_spec sz draw 20 0 rfl (by omega)
  exact ⟨by rw [hk3]; omega, k, hk2, hk3, hk4⟩

/-- Counterexample for C9: with draws that always land on the coast (the
all-zeros draw gives the point `(0, 150)`, which fails the water test), the
loop stops after exactly 20 attempts — never ~30–40 — and still accepts the
on-land point. -/
theorem claim_C9_counterexample :
    (spawnLoop ⟨800, 600, 1⟩ (fun _ => ((0 : ℚ), 0)) 20 0).2 = 20 ∧
    isInWater ⟨800, 600, 1⟩ 0 150 = false ∧
    (spawnLoop ⟨800, 600, 1⟩ (fun _ => ((0 : ℚ), 0)) 20 0).1 = (0, 150) ∧
    ¬(30 ≤ (spawnLoop ⟨800, 600, 1⟩ (fun _ => ((0 : ℚ), 0)) 20 0).2) := by
  have hsp : ∀ k, samplePoint ⟨800, 600, 1⟩ (fun _ => ((0 : ℚ), 0)) k =
      ((0 : ℚ), 150) := by
    intro k
    simp only [samplePoint]
    norm_num
  have hw : isInWater ⟨800, 600, 1⟩ 0 150 = false := by
    simp only [isInWater, NORTH_COAST, SOUTH_COAST, interpY]
    norm_num
  obtain ⟨k, -, hk2, hk3, hk4⟩ :=
    spawnLoop_spec ⟨800, 600, 1⟩ (fun _ => ((0 : ℚ), 0)) 20 0 rfl (by omega)
  rw [hsp k] at hk3 hk4
  rcases hk4 with h | h
  · rw [hw] at h
    exact absurd h (by simp)
  · have hk19 : k = 19 := by omega
    rw [hk19] at hk3
    rw [hk3]
    exact ⟨rfl, hw, rfl, by omega⟩

end Akashi
